import Mathlib

/-!
Verification development for the gokid interpreter (lexer, Pratt parser,
tree-walking evaluator with chained environments).

Modelling conventions:
* Go strings are embedded as `List Char` (all inputs of interest are ASCII,
  so Go's byte indexing and `List Char` indexing agree).
* Go `int64` is embedded as `Int`; the programs exercised here stay far away
  from 2^63, so two's-complement wraparound is not modelled.
* Go `float64` is embedded as the exact fraction type `GoFloat` (an
  unnormalized integer numerator/denominator pair, with `toRat` giving its
  rational value); every float computation appearing in a verified statement
  (zero tests of divisors, `10.0 / 4`) is exact in both `float64` and this
  embedding, and rounding of inexact `float64` operations is not modelled.
* Go interface values that may be `nil` are embedded as `Option Object`
  (`none` = Go `nil`).
* Environments are heap-allocated and shared by pointer in Go; the heap is
  embedded as a `List Environment` indexed by allocation order, and an
  environment reference is an index into that list.
* Go runtime panics (slice index out of range, `nil` dereference, failed type
  assertion) are embedded as the evaluator outcome `panicked`.
* Recursion in the evaluator and parser is made total with an explicit fuel
  parameter; running out of fuel gives the artificial outcome `timeout`,
  which no claim depends on.
* Hash/object literals, `for`/`switch`/`try`/`throw`/`import`/`export`
  statements and dot/ternary expressions are omitted from the embedding: no
  claim exercises them.  Where the source stores a `nil` sub-expression in an
  AST node after recording a parse error, this embedding returns a parse
  failure instead; `runProgram` only evaluates when the recorded error list
  is empty, where the two behaviours agree.
-/

/-- Token kinds.  In the source `tokens.TokenType` is a string type and each
kind is a string constant, reproduced verbatim below. -/
abbrev TokenType := String

namespace tokens

def ILLEGAL : TokenType := "ILLEGAL"

def EOF : TokenType := "EOF"

def IDENT : TokenType := "IDENT"

def INT : TokenType := "INT"

def FLOAT : TokenType := "FLOAT"

def STRING : TokenType := "STRING"

def ASSIGN : TokenType := "="

def PLUS : TokenType := "+"

def MINUS : TokenType := "-"

def ASTERISK : TokenType := "*"

def SLASH : TokenType := "/"

def MODULO : TokenType := "%"

def POWER : TokenType := "**"

def PLUS_ASSIGN : TokenType := "+="

def MINUS_ASSIGN : TokenType := "-="

def MULTIPLY_ASSIGN : TokenType := "*="

def DIVIDE_ASSIGN : TokenType := "/="

def EQ : TokenType := "=="

def NOT_EQ : TokenType := "!="

def LT : TokenType := "<"

def GT : TokenType := ">"

def LTE : TokenType := "<="

def GTE : TokenType := ">="

def AND : TokenType := "&&"

def OR : TokenType := "||"

def NOT : TokenType := "!"

def SEMICOLON : TokenType := ";"

def COLON : TokenType := ":"

def COMMA : TokenType := ","

def DOT : TokenType := "."

def QUESTION : TokenType := "?"

def LPAREN : TokenType := "("

def RPAREN : TokenType := ")"

def LBRACE : TokenType := "\x7b"

def RBRACE : TokenType := "\x7d"

def LBRACKET : TokenType := "["

def RBRACKET : TokenType := "]"

def AT : TokenType := "@"

def HASH : TokenType := "#"

def ARROW : TokenType := "=>"

def LET : TokenType := "LET"

def CONST : TokenType := "CONST"

def VAR : TokenType := "VAR"

def FUNCTION : TokenType := "FUNCTION"

def RETURN : TokenType := "RETURN"

def IF : TokenType := "IF"

def ELSE : TokenType := "ELSE"

def WHILE : TokenType := "WHILE"

def FOR : TokenType := "FOR"

def BREAK : TokenType := "BREAK"

def CONTINUE : TokenType := "CONTINUE"

def SWITCH : TokenType := "SWITCH"

def CASE : TokenType := "CASE"

def DEFAULT : TokenType := "DEFAULT"

def TRUE : TokenType := "TRUE"

def FALSE : TokenType := "FALSE"

def NULL : TokenType := "NULL"

def STRING_TYPE : TokenType := "STRING_TYPE"

def INT_TYPE : TokenType := "INT_TYPE"

def FLOAT_TYPE : TokenType := "FLOAT_TYPE"

def BOOL_TYPE : TokenType := "BOOL_TYPE"

def ARRAY_TYPE : TokenType := "ARRAY_TYPE"

def OBJECT_TYPE : TokenType := "OBJECT_TYPE"

def CLASS : TokenType := "CLASS"

def THIS : TokenType := "THIS"

def NEW : TokenType := "NEW"

def EXTENDS : TokenType := "EXTENDS"

def SUPER : TokenType := "SUPER"

def TRY : TokenType := "TRY"

def CATCH : TokenType := "CATCH"

def THROW : TokenType := "THROW"

def FINALLY : TokenType := "FINALLY"

def IMPORT : TokenType := "IMPORT"

def EXPORT : TokenType := "EXPORT"

def FROM : TokenType := "FROM"

def AS : TokenType := "AS"

def GLOBAL : TokenType := "GLOBAL"

def LOCAL : TokenType := "LOCAL"

def PRINT : TokenType := "PRINT"

def LEN : TokenType := "LEN"

def TYPE : TokenType := "TYPE"

end tokens

/-- A token: kind plus literal text (`tokens.Token`; the Go field `Type` is
renamed `ttype` because `Type` is reserved in Lean). -/
structure Token where
  ttype : TokenType
  literal : String
deriving Repr, DecidableEq

/-- The keyword table (`tokens.LookupIdent`): reserved words map to keyword
token kinds, everything else is an identifier. -/
def LookupIdent : String → TokenType
  | "let" => tokens.LET
  | "const" => tokens.CONST
  | "var" => tokens.VAR
  | "fn" => tokens.FUNCTION
  | "function" => tokens.FUNCTION
  | "return" => tokens.RETURN
  | "if" => tokens.IF
  | "else" => tokens.ELSE
  | "while" => tokens.WHILE
  | "for" => tokens.FOR
  | "break" => tokens.BREAK
  | "continue" => tokens.CONTINUE
  | "switch" => tokens.SWITCH
  | "case" => tokens.CASE
  | "default" => tokens.DEFAULT
  | "true" => tokens.TRUE
  | "false" => tokens.FALSE
  | "null" => tokens.NULL
  | "string" => tokens.STRING_TYPE
  | "int" => tokens.INT_TYPE
  | "float" => tokens.FLOAT_TYPE
  | "bool" => tokens.BOOL_TYPE
  | "array" => tokens.ARRAY_TYPE
  | "object" => tokens.OBJECT_TYPE
  | "class" => tokens.CLASS
  | "this" => tokens.THIS
  | "new" => tokens.NEW
  | "extends" => tokens.EXTENDS
  | "super" => tokens.SUPER
  | "try" => tokens.TRY
  | "catch" => tokens.CATCH
  | "throw" => tokens.THROW
  | "finally" => tokens.FINALLY
  | "import" => tokens.IMPORT
  | "export" => tokens.EXPORT
  | "from" => tokens.FROM
  | "as" => tokens.AS
  | "global" => tokens.GLOBAL
  | "local" => tokens.LOCAL
  | "print" => tokens.PRINT
  | "len" => tokens.LEN
  | "type" => tokens.TYPE
  | _ => tokens.IDENT

/-- The 0 byte used by the lexer as its end-of-input sentinel. -/
def nulChar : Char := Char.ofNat 0

/-- The double-quote byte that delimits string literals. -/
def quoteChar : Char := Char.ofNat 34

/-- Lexer state (`lexer.Lexer`): the input, a cursor `position`, the next
read position and the current byte. -/
structure Lexer where
  input : List Char
  position : Nat
  readPosition : Nat
  ch : Char
deriving Repr

/-- Advance the cursor one byte, loading the 0 sentinel at end of input
(`Lexer.readChar`). -/
def readChar (l : Lexer) : Lexer :=
  let c := if l.readPosition ≥ l.input.length then nulChar
           else l.input.getD l.readPosition nulChar
  { l with ch := c, position := l.readPosition, readPosition := l.readPosition + 1 }

/-- Create a lexer over a source string (`lexer.NewLexer`). -/
def NewLexer (input : String) : Lexer :=
  readChar { input := input.data, position := 0, readPosition := 0, ch := nulChar }

/-- One byte of lookahead without advancing (`Lexer.peekChar`). -/
def peekChar (l : Lexer) : Char :=
  if l.readPosition ≥ l.input.length then nulChar
  else l.input.getD l.readPosition nulChar

/-- Letters and underscore (`lexer.isLetter`). -/
def isLetter (ch : Char) : Bool :=
  decide (('a' ≤ ch ∧ ch ≤ 'z') ∨ ('A' ≤ ch ∧ ch ≤ 'Z') ∨ ch = '_')

/-- ASCII digits (`lexer.isDigit`). -/
def isDigit (ch : Char) : Bool :=
  decide ('0' ≤ ch ∧ ch ≤ '9')

/-- Whitespace-skipping loop of `Lexer.skipWhitespace`, with fuel; each step
advances the cursor, so `input.length + 1` fuel always suffices. -/
def skipWhitespaceFuel : Nat → Lexer → Lexer
  | 0, l => l
  | n + 1, l =>
    if l.ch = ' ' ∨ l.ch = '\t' ∨ l.ch = '\n' ∨ l.ch = '\r' then
      skipWhitespaceFuel n (readChar l)
    else l

/-- Skip space, tab, newline and carriage return (`Lexer.skipWhitespace`). -/
def skipWhitespace (l : Lexer) : Lexer :=
  skipWhitespaceFuel (l.input.length + 1) l

/-- Advance while the current byte is a letter (loop of
`Lexer.readIdentifier`). -/
def readLettersFuel : Nat → Lexer → Lexer
  | 0, l => l
  | n + 1, l => if isLetter l.ch then readLettersFuel n (readChar l) else l

/-- Slice of the input from `a` (inclusive) to `b` (exclusive), the
embedding of Go's `l.input[a:b]`. -/
def inputSlice (l : Lexer) (a b : Nat) : String :=
  String.mk ((l.input.drop a).take (b - a))

/-- Read a maximal run of letters/underscore (`Lexer.readIdentifier`). -/
def readIdentifier (l : Lexer) : String × Lexer :=
  let pos := l.position
  let l2 := readLettersFuel (l.input.length + 1) l
  (inputSlice l2 pos l2.position, l2)

/-- Advance while the current byte is a digit (digit loop of
`Lexer.readNumber`). -/
def readDigitsFuel : Nat → Lexer → Lexer
  | 0, l => l
  | n + 1, l => if isDigit l.ch then readDigitsFuel n (readChar l) else l

/-- Read a number (`Lexer.readNumber`): a maximal digit run, reclassified as
a float when followed by `.` and another digit. -/
def readNumber (l : Lexer) : String × TokenType × Lexer :=
  let pos := l.position
  let l2 := readDigitsFuel (l.input.length + 1) l
  if l2.ch = '.' ∧ isDigit (peekChar l2) then
    let l3 := readDigitsFuel (l.input.length + 1) (readChar l2)
    (inputSlice l3 pos l3.position, tokens.FLOAT, l3)
  else
    (inputSlice l2 pos l2.position, tokens.INT, l2)

/-- Loop of `Lexer.readString`: advance until a closing quote or end of
input. -/
def readStringFuel : Nat → Lexer → Lexer
  | 0, l => l
  | n + 1, l =>
    let l2 := readChar l
    if l2.ch = quoteChar ∨ l2.ch = nulChar then l2 else readStringFuel n l2

/-- Read the raw bytes of a string literal (`Lexer.readString`). -/
def readStringLit (l : Lexer) : String × Lexer :=
  let pos := l.position + 1
  let l2 := readStringFuel (l.input.length + 1) l
  (inputSlice l2 pos l2.position, l2)

/-- Build a single-byte token (`lexer.newToken`). -/
def newToken (tokenType : TokenType) (ch : Char) : Token :=
  { ttype := tokenType, literal := String.mk [ch] }

/-- Build a two-byte token from the current byte and the byte after it,
advancing past both (the two-character branches of `Lexer.NextToken`). -/
def twoCharToken (tokenType : TokenType) (l : Lexer) : Token × Lexer :=
  let c1 := l.ch
  let l1 := readChar l
  ({ ttype := tokenType, literal := String.mk [c1, l1.ch] }, readChar l1)

/-- Produce the next token (`Lexer.NextToken`): skip whitespace, then
dispatch on the current byte with one-byte lookahead for the multi-byte
operators. -/
def NextToken (l0 : Lexer) : Token × Lexer :=
  let l := skipWhitespace l0
  if l.ch = '=' then
    if peekChar l = '=' then twoCharToken tokens.EQ l
    else if peekChar l = '>' then twoCharToken tokens.ARROW l
    else (newToken tokens.ASSIGN l.ch, readChar l)
  else if l.ch = '+' then
    if peekChar l = '=' then twoCharToken tokens.PLUS_ASSIGN l
    else (newToken tokens.PLUS l.ch, readChar l)
  else if l.ch = '-' then
    if peekChar l = '=' then twoCharToken tokens.MINUS_ASSIGN l
    else (newToken tokens.MINUS l.ch, readChar l)
  else if l.ch = '*' then
    if peekChar l = '*' then twoCharToken tokens.POWER l
    else if peekChar l = '=' then twoCharToken tokens.MULTIPLY_ASSIGN l
    else (newToken tokens.ASTERISK l.ch, readChar l)
  else if l.ch = '/' then
    if peekChar l = '=' then twoCharToken tokens.DIVIDE_ASSIGN l
    else (newToken tokens.SLASH l.ch, readChar l)
  else if l.ch = '%' then (newToken tokens.MODULO l.ch, readChar l)
  else if l.ch = '!' then
    if peekChar l = '=' then twoCharToken tokens.NOT_EQ l
    else (newToken tokens.NOT l.ch, readChar l)
  else if l.ch = '<' then
    if peekChar l = '=' then twoCharToken tokens.LTE l
    else (newToken tokens.LT l.ch, readChar l)
  else if l.ch = '>' then
    if peekChar l = '=' then twoCharToken tokens.GTE l
    else (newToken tokens.GT l.ch, readChar l)
  else if l.ch = '&' then
    if peekChar l = '&' then twoCharToken tokens.AND l
    else (newToken tokens.ILLEGAL l.ch, readChar l)
  else if l.ch = '|' then
    if peekChar l = '|' then twoCharToken tokens.OR l
    else (newToken tokens.ILLEGAL l.ch, readChar l)
  else if l.ch = '(' then (newToken tokens.LPAREN l.ch, readChar l)
  else if l.ch = ')' then (newToken tokens.RPAREN l.ch, readChar l)
  else if l.ch = '{' then (newToken tokens.LBRACE l.ch, readChar l)
  else if l.ch = '}' then (newToken tokens.RBRACE l.ch, readChar l)
  else if l.ch = '[' then (newToken tokens.LBRACKET l.ch, readChar l)
  else if l.ch = ']' then (newToken tokens.RBRACKET l.ch, readChar l)
  else if l.ch = ',' then (newToken tokens.COMMA l.ch, readChar l)
  else if l.ch = ';' then (newToken tokens.SEMICOLON l.ch, readChar l)
  else if l.ch = ':' then (newToken tokens.COLON l.ch, readChar l)
  else if l.ch = '.' then (newToken tokens.DOT l.ch, readChar l)
  else if l.ch = '?' then (newToken tokens.QUESTION l.ch, readChar l)
  else if l.ch = '@' then (newToken tokens.AT l.ch, readChar l)
  else if l.ch = '#' then (newToken tokens.HASH l.ch, readChar l)
  else if l.ch = quoteChar then
    let (s, l2) := readStringLit l
    ({ ttype := tokens.STRING, literal := s }, readChar l2)
  else if l.ch = nulChar then ({ ttype := tokens.EOF, literal := "" }, readChar l)
  else if isLetter l.ch then
    let (lit, l2) := readIdentifier l
    ({ ttype := LookupIdent lit, literal := lit }, l2)
  else if isDigit l.ch then
    let (lit, tt, l2) := readNumber l
    ({ ttype := tt, literal := lit }, l2)
  else (newToken tokens.ILLEGAL l.ch, readChar l)

/-- The embedding of Go `float64`: an exact, unnormalized fraction.  Every
float value built by the interpreter on the verified inputs is exactly
representable, so no rounding is modelled; the denominator of every value
the interpreter constructs is nonzero. -/
structure GoFloat where
  num : Int
  den : Int
deriving Repr, DecidableEq

/-- The rational value of an embedded float. -/
def toRat (f : GoFloat) : Rat :=
  (f.num : Rat) / (f.den : Rat)

/-- Embedded float addition. -/
def fadd (a b : GoFloat) : GoFloat :=
  { num := a.num * b.den + b.num * a.den, den := a.den * b.den }

/-- Embedded float subtraction. -/
def fsub (a b : GoFloat) : GoFloat :=
  { num := a.num * b.den - b.num * a.den, den := a.den * b.den }

/-- Embedded float multiplication. -/
def fmul (a b : GoFloat) : GoFloat :=
  { num := a.num * b.num, den := a.den * b.den }

/-- Embedded float division (callers test the divisor for zero first). -/
def fdiv (a b : GoFloat) : GoFloat :=
  { num := a.num * b.den, den := a.den * b.num }

/-- Value equality of embedded floats (cross multiplication; exact, like
`==` on the exactly-represented `float64` values arising here). -/
def feq (a b : GoFloat) : Bool :=
  a.num * b.den = b.num * a.den

/-- Value order on embedded floats (sign-corrected cross multiplication). -/
def flt (a b : GoFloat) : Bool :=
  (a.num * b.den - b.num * a.den) * (a.den * b.den).sign < 0

/-- The zero test `rightVal == 0` on an embedded float. -/
def fzero (a : GoFloat) : Bool :=
  a.num = 0

mutual

/-- Expression AST nodes (`parser/ast.go`).  Token fields carry no semantic
weight and are dropped; `Identifier` nodes are represented by their `Value`
string.  Object/hash literals, dot and ternary expressions are omitted (no
claim exercises them). -/
inductive Expr where
  | IdentifierE (value : String)
  | IntegerLiteralE (value : Int)
  | FloatLiteralE (value : GoFloat)
  | StringLiteralE (value : String)
  | BooleanLiteralE (value : Bool)
  | NullLiteralE
  | ArrayLiteralE (elements : List Expr)
  | PrefixE (operator : String) (right : Expr)
  | InfixE (operator : String) (left : Expr) (right : Expr)
  | IfE (condition : Expr) (consequence : Block) (alternative : Option Block)
  | FunctionLiteralE (parameters : List String) (body : Block)
  | CallE (function : Expr) (arguments : List Expr)
  | IndexE (left : Expr) (index : Expr)
  | AssignmentE (operator : String) (name : String) (value : Expr)

/-- Statement AST nodes (`parser/ast.go`).  `for`, `switch`, `try`, `throw`,
`import` and `export` statements are omitted (no claim exercises them). -/
inductive Stmt where
  | LetS (name : String) (value : Expr)
  | ConstS (name : String) (value : Expr)
  | VarS (name : String) (value : Option Expr)
  | ReturnS (returnValue : Expr)
  | ExpressionS (expression : Expr)
  | WhileS (condition : Expr) (body : Block)
  | BreakS
  | ContinueS

/-- A block statement: a brace-delimited statement list. -/
inductive Block where
  | mk (statements : List Stmt)

end

/- Precedence levels (the `iota` block in the parser). `UNARY` is named
differently in the source, after the unary-operator position. -/
namespace prec

def LOWEST : Nat := 1

def ASSIGN : Nat := 2

def TERNARY : Nat := 3

def OR : Nat := 4

def AND : Nat := 5

def EQUALS : Nat := 6

def LESSGREATER : Nat := 7

def SUM : Nat := 8

def PRODUCT : Nat := 9

def POWER : Nat := 10

def UNARY : Nat := 11

def CALL : Nat := 12

def INDEX : Nat := 13

end prec

/-- The token-to-precedence map (`parser.precedences`). -/
def precedences (t : TokenType) : Option Nat :=
  if t = tokens.ASSIGN then some prec.ASSIGN
  else if t = tokens.PLUS_ASSIGN then some prec.ASSIGN
  else if t = tokens.MINUS_ASSIGN then some prec.ASSIGN
  else if t = tokens.MULTIPLY_ASSIGN then some prec.ASSIGN
  else if t = tokens.DIVIDE_ASSIGN then some prec.ASSIGN
  else if t = tokens.QUESTION then some prec.TERNARY
  else if t = tokens.OR then some prec.OR
  else if t = tokens.AND then some prec.AND
  else if t = tokens.EQ then some prec.EQUALS
  else if t = tokens.NOT_EQ then some prec.EQUALS
  else if t = tokens.LT then some prec.LESSGREATER
  else if t = tokens.GT then some prec.LESSGREATER
  else if t = tokens.LTE then some prec.LESSGREATER
  else if t = tokens.GTE then some prec.LESSGREATER
  else if t = tokens.PLUS then some prec.SUM
  else if t = tokens.MINUS then some prec.SUM
  else if t = tokens.SLASH then some prec.PRODUCT
  else if t = tokens.ASTERISK then some prec.PRODUCT
  else if t = tokens.MODULO then some prec.PRODUCT
  else if t = tokens.POWER then some prec.POWER
  else if t = tokens.LPAREN then some prec.CALL
  else if t = tokens.LBRACKET then some prec.INDEX
  else if t = tokens.DOT then some prec.INDEX
  else none

/-- Parser state (`parser.Parser`): the lexer, current and peek tokens, and
the accumulated error messages. -/
structure ParserState where
  l : Lexer
  curToken : Token
  peekToken : Token
  errors : List String
deriving Repr

/-- Advance the two-token window (`Parser.nextToken`). -/
def pNextToken (p : ParserState) : ParserState :=
  let (tok, l2) := NextToken p.l
  { l := l2, curToken := p.peekToken, peekToken := tok, errors := p.errors }

/-- Create a parser and prime the two-token window (`parser.New`). -/
def pNew (l : Lexer) : ParserState :=
  pNextToken (pNextToken
    { l := l
      curToken := { ttype := tokens.ILLEGAL, literal := "" }
      peekToken := { ttype := tokens.ILLEGAL, literal := "" }
      errors := [] })

/-- Test the current token's kind (`Parser.curTokenIs`). -/
def curTokenIs (p : ParserState) (t : TokenType) : Bool :=
  p.curToken.ttype = t

/-- Test the peek token's kind (`Parser.peekTokenIs`). -/
def peekTokenIs (p : ParserState) (t : TokenType) : Bool :=
  p.peekToken.ttype = t

/-- Record an expectation failure (`Parser.peekError`). -/
def peekError (p : ParserState) (t : TokenType) : ParserState :=
  { p with errors := p.errors ++
      ["expected next token to be " ++ t ++ ", got " ++ p.peekToken.ttype ++ " instead"] }

/-- Advance if the peek token has the expected kind, else record an error
(`Parser.expectPeek`). -/
def expectPeek (p : ParserState) (t : TokenType) : Bool × ParserState :=
  if peekTokenIs p t then (true, pNextToken p) else (false, peekError p t)

/-- Record a missing-prefix-rule error (`Parser.noPrefixParseFnError`). -/
def noPrefixParseFnError (p : ParserState) (t : TokenType) : ParserState :=
  { p with errors := p.errors ++ ["no prefix parse function for " ++ t ++ " found"] }

/-- Precedence of the peek token (`Parser.peekPrecedence`). -/
def peekPrecedence (p : ParserState) : Nat :=
  (precedences p.peekToken.ttype).getD prec.LOWEST

/-- Precedence of the current token (`Parser.curPrecedence`). -/
def curPrecedence (p : ParserState) : Nat :=
  (precedences p.curToken.ttype).getD prec.LOWEST

/-- Decimal integer literal parsing (the `strconv.ParseInt(lit, 0, 64)` call
of `parseIntegerLiteral`; the lexer only produces digit runs, and the inputs
verified here contain no base-prefix or 64-bit-overflow literals). -/
def parseIntLit (s : String) : Option Int :=
  if s.length > 0 ∧ s.data.all isDigit then
    some ((s.data.foldl (fun acc c => acc * 10 + (c.toNat - 48)) 0 : Nat) : Int)
  else none

/-- Split a character list at the first decimal point. -/
def splitDot : List Char → List Char × Option (List Char)
  | [] => ([], none)
  | c :: rest =>
    if c = '.' then ([], some rest)
    else
      let (a, b) := splitDot rest
      (c :: a, b)

/-- Float literal parsing (the `strconv.ParseFloat(lit, 64)` call of
`parseFloatLiteral`); the lexer only produces literals of the shape
`digits.digits`, whose values are exact. -/
def parseFloatLit (s : String) : Option GoFloat :=
  match splitDot s.data with
  | (a, none) => (parseIntLit (String.mk a)).map (fun n => { num := n, den := 1 })
  | (a, some b) =>
    match parseIntLit (String.mk a), parseIntLit (String.mk b) with
    | some n, some f =>
      some { num := n * ((10 ^ b.length : Nat) : Int) + f, den := ((10 ^ b.length : Nat) : Int) }
    | _, _ => none

/-- Token kinds with a registered infix parse rule (the `registerInfix`
calls in `parser.New`; dot and ternary are omitted from the embedding). -/
def hasInfixFn (t : TokenType) : Bool :=
  t = tokens.PLUS ∨ t = tokens.MINUS ∨ t = tokens.SLASH ∨ t = tokens.ASTERISK ∨
  t = tokens.MODULO ∨ t = tokens.POWER ∨ t = tokens.EQ ∨ t = tokens.NOT_EQ ∨
  t = tokens.LT ∨ t = tokens.GT ∨ t = tokens.LTE ∨ t = tokens.GTE ∨
  t = tokens.AND ∨ t = tokens.OR ∨ t = tokens.ASSIGN ∨ t = tokens.PLUS_ASSIGN ∨
  t = tokens.MINUS_ASSIGN ∨ t = tokens.MULTIPLY_ASSIGN ∨ t = tokens.DIVIDE_ASSIGN ∨
  t = tokens.LPAREN ∨ t = tokens.LBRACKET


/-- A parsing request: one constructor per parse routine of the source's
`Parser` (the mutual recursion is packed into a single fuel-indexed
function so that concrete parses reduce definitionally). -/
inductive PReq where
  | expression (precedence : Nat)
  | expressionLoop (leftExp : Expr) (precedence : Nat)
  | prefixRule
  | infixRule (leftExp : Expr)
  | infixExpr (leftExp : Expr)
  | assignExpr (leftExp : Expr)
  | callExpr (function : Expr)
  | indexExpr (leftExp : Expr)
  | prefixExpr
  | grouped
  | ifExpr
  | fnLiteral
  | fnParams
  | fnParamsLoop (acc : List String)
  | arrayLit
  | exprList (endTT : TokenType)
  | exprListLoop (acc : List Expr) (endTT : TokenType)
  | statement
  | letStmt
  | constStmt
  | varStmt
  | returnStmt
  | exprStmt
  | fnStmt
  | whileStmt
  | blockStmt
  | blockStmtLoop (acc : List Stmt)
  | programLoop (acc : List Stmt)

/-- A parsing answer: the produced syntax (an `Option` mirrors the source's
possibly-`nil` result) plus the updated parser state. -/
inductive PAns where
  | expr (e : Option Expr) (p : ParserState)
  | stmtA (s : Option Stmt) (p : ParserState)
  | blockA (b : Block) (p : ParserState)
  | names (ns : Option (List String)) (p : ParserState)
  | exprs (es : Option (List Expr)) (p : ParserState)
  | stmtList (ss : List Stmt) (p : ParserState)

/-- Skip a trailing semicolon (the `if p.peekTokenIs(tokens.SEMICOLON)`
epilogue shared by the statement parsers). -/
def skipSemicolon (p : ParserState) : ParserState :=
  if peekTokenIs p tokens.SEMICOLON then pNextToken p else p

/-- The parser: one fuel-indexed function whose arms are the parse routines
of the source (named in the comments).  Running out of fuel produces a
parse failure; every concrete parse in this development is run with ample
fuel. -/
def parseFuel : Nat → PReq → ParserState → PAns
  | 0, req, p =>
    match req with
    | .expression _ => .expr none p
    | .expressionLoop leftExp _ => .expr (some leftExp) p
    | .prefixRule => .expr none p
    | .infixRule _ => .expr none p
    | .infixExpr _ => .expr none p
    | .assignExpr _ => .expr none p
    | .callExpr _ => .expr none p
    | .indexExpr _ => .expr none p
    | .prefixExpr => .expr none p
    | .grouped => .expr none p
    | .ifExpr => .expr none p
    | .fnLiteral => .expr none p
    | .fnParams => .names none p
    | .fnParamsLoop _ => .names none p
    | .arrayLit => .expr none p
    | .exprList _ => .exprs none p
    | .exprListLoop _ _ => .exprs none p
    | .statement => .stmtA none p
    | .letStmt => .stmtA none p
    | .constStmt => .stmtA none p
    | .varStmt => .stmtA none p
    | .returnStmt => .stmtA none p
    | .exprStmt => .stmtA none p
    | .fnStmt => .stmtA none p
    | .whileStmt => .stmtA none p
    | .blockStmt => .blockA (Block.mk []) p
    | .blockStmtLoop acc => .blockA (Block.mk acc) p
    | .programLoop acc => .stmtList acc p
  | fuel + 1, req, p =>
    match req with
    -- Parser.parseExpression: apply the prefix rule of the current token,
    -- then enter the infix loop.
    | .expression precedence =>
      match parseFuel fuel .prefixRule p with
      | .expr none p1 => .expr none p1
      | .expr (some leftExp) p1 => parseFuel fuel (.expressionLoop leftExp precedence) p1
      | _ => .expr none p
    -- The infix loop inside Parser.parseExpression.
    | .expressionLoop leftExp precedence =>
      if ¬ peekTokenIs p tokens.SEMICOLON ∧ precedence < peekPrecedence p then
        if hasInfixFn p.peekToken.ttype then
          let p1 := pNextToken p
          match parseFuel fuel (.infixRule leftExp) p1 with
          | .expr (some l2) p2 => parseFuel fuel (.expressionLoop l2 precedence) p2
          | .expr none p2 => .expr none p2
          | _ => .expr none p
        else .expr (some leftExp) p
      else .expr (some leftExp) p
    -- Dispatch of the registered prefix parse rules (the prefixParseFns map
    -- built in parser.New).
    | .prefixRule =>
      let t := p.curToken.ttype
      if t = tokens.IDENT ∨ t = tokens.PRINT ∨ t = tokens.LEN ∨ t = tokens.TYPE then
        -- Parser.parseIdentifier
        .expr (some (Expr.IdentifierE p.curToken.literal)) p
      else if t = tokens.INT then
        -- Parser.parseIntegerLiteral
        match parseIntLit p.curToken.literal with
        | some v => .expr (some (Expr.IntegerLiteralE v)) p
        | none =>
          .expr none { p with errors := p.errors ++
            ["could not parse " ++ p.curToken.literal ++ " as integer"] }
      else if t = tokens.FLOAT then
        -- Parser.parseFloatLiteral
        match parseFloatLit p.curToken.literal with
        | some v => .expr (some (Expr.FloatLiteralE v)) p
        | none =>
          .expr none { p with errors := p.errors ++
            ["could not parse " ++ p.curToken.literal ++ " as float"] }
      else if t = tokens.STRING then
        -- Parser.parseStringLiteral
        .expr (some (Expr.StringLiteralE p.curToken.literal)) p
      else if t = tokens.TRUE ∨ t = tokens.FALSE then
        -- Parser.parseBooleanLiteral
        .expr (some (Expr.BooleanLiteralE (curTokenIs p tokens.TRUE))) p
      else if t = tokens.NULL then .expr (some Expr.NullLiteralE) p
      else if t = tokens.NOT ∨ t = tokens.MINUS then parseFuel fuel .prefixExpr p
      else if t = tokens.LPAREN then parseFuel fuel .grouped p
      else if t = tokens.IF then parseFuel fuel .ifExpr p
      else if t = tokens.FUNCTION then parseFuel fuel .fnLiteral p
      else if t = tokens.LBRACKET then parseFuel fuel .arrayLit p
      else .expr none (noPrefixParseFnError p t)
    -- Dispatch of the registered infix parse rules (the infixParseFns map
    -- built in parser.New), called with the operator token current.
    | .infixRule leftExp =>
      let t := p.curToken.ttype
      if t = tokens.ASSIGN ∨ t = tokens.PLUS_ASSIGN ∨ t = tokens.MINUS_ASSIGN ∨
         t = tokens.MULTIPLY_ASSIGN ∨ t = tokens.DIVIDE_ASSIGN then
        parseFuel fuel (.assignExpr leftExp) p
      else if t = tokens.LPAREN then parseFuel fuel (.callExpr leftExp) p
      else if t = tokens.LBRACKET then parseFuel fuel (.indexExpr leftExp) p
      else parseFuel fuel (.infixExpr leftExp) p
    -- Parser.parseInfixExpression.
    | .infixExpr leftExp =>
      let operator := p.curToken.literal
      let precedence := curPrecedence p
      let p1 := pNextToken p
      match parseFuel fuel (.expression precedence) p1 with
      | .expr (some right) p2 => .expr (some (Expr.InfixE operator leftExp right)) p2
      | .expr none p2 => .expr none p2
      | _ => .expr none p
    -- Parser.parseAssignmentExpression: the left-hand side must have parsed
    -- as a plain identifier.
    | .assignExpr leftExp =>
      match leftExp with
      | Expr.IdentifierE name =>
        let operator := p.curToken.literal
        let precedence := curPrecedence p
        let p1 := pNextToken p
        match parseFuel fuel (.expression precedence) p1 with
        | .expr (some v) p2 => .expr (some (Expr.AssignmentE operator name v)) p2
        | .expr none p2 => .expr none p2
        | _ => .expr none p
      | _ => .expr none { p with errors := p.errors ++ ["expected identifier, got expression"] }
    -- Parser.parseCallExpression.
    | .callExpr function =>
      match parseFuel fuel (.exprList tokens.RPAREN) p with
      | .exprs (some args) p1 => .expr (some (Expr.CallE function args)) p1
      | .exprs none p1 => .expr none p1
      | _ => .expr none p
    -- Parser.parseIndexExpression.
    | .indexExpr leftExp =>
      let p1 := pNextToken p
      match parseFuel fuel (.expression prec.LOWEST) p1 with
      | .expr (some idx) p2 =>
        match expectPeek p2 tokens.RBRACKET with
        | (true, p3) => .expr (some (Expr.IndexE leftExp idx)) p3
        | (false, p3) => .expr none p3
      | .expr none p2 => .expr none p2
      | _ => .expr none p
    -- Parser.parsePrefixExpression.
    | .prefixExpr =>
      let operator := p.curToken.literal
      let p1 := pNextToken p
      match parseFuel fuel (.expression prec.UNARY) p1 with
      | .expr (some right) p2 => .expr (some (Expr.PrefixE operator right)) p2
      | .expr none p2 => .expr none p2
      | _ => .expr none p
    -- Parser.parseGroupedExpression.
    | .grouped =>
      let p1 := pNextToken p
      match parseFuel fuel (.expression prec.LOWEST) p1 with
      | .expr e p2 =>
        match expectPeek p2 tokens.RPAREN with
        | (true, p3) => .expr e p3
        | (false, p3) => .expr none p3
      | _ => .expr none p
    -- Parser.parseIfExpression.
    | .ifExpr =>
      match expectPeek p tokens.LPAREN with
      | (false, p1) => .expr none p1
      | (true, p1) =>
        let p2 := pNextToken p1
        match parseFuel fuel (.expression prec.LOWEST) p2 with
        | .expr none p3 => .expr none p3
        | .expr (some cond) p3 =>
          match expectPeek p3 tokens.RPAREN with
          | (false, p4) => .expr none p4
          | (true, p4) =>
            match expectPeek p4 tokens.LBRACE with
            | (false, p5) => .expr none p5
            | (true, p5) =>
              match parseFuel fuel .blockStmt p5 with
              | .blockA cons p6 =>
                if peekTokenIs p6 tokens.ELSE then
                  let p7 := pNextToken p6
                  match expectPeek p7 tokens.LBRACE with
                  | (false, p8) => .expr none p8
                  | (true, p8) =>
                    match parseFuel fuel .blockStmt p8 with
                    | .blockA alt p9 => .expr (some (Expr.IfE cond cons (some alt))) p9
                    | _ => .expr none p
                else .expr (some (Expr.IfE cond cons none)) p6
              | _ => .expr none p
        | _ => .expr none p
    -- Parser.parseFunctionLiteral.
    | .fnLiteral =>
      match expectPeek p tokens.LPAREN with
      | (false, p1) => .expr none p1
      | (true, p1) =>
        match parseFuel fuel .fnParams p1 with
        | .names none p2 => .expr none p2
        | .names (some params) p2 =>
          match expectPeek p2 tokens.LBRACE with
          | (false, p3) => .expr none p3
          | (true, p3) =>
            match parseFuel fuel .blockStmt p3 with
            | .blockA body p4 => .expr (some (Expr.FunctionLiteralE params body)) p4
            | _ => .expr none p
        | _ => .expr none p
    -- Parser.parseFunctionParameters; as in the source, the literal of the
    -- token after the parenthesis or comma is taken unchecked.
    | .fnParams =>
      if peekTokenIs p tokens.RPAREN then .names (some []) (pNextToken p)
      else
        let p1 := pNextToken p
        parseFuel fuel (.fnParamsLoop [p1.curToken.literal]) p1
    -- The comma loop of Parser.parseFunctionParameters.
    | .fnParamsLoop acc =>
      if peekTokenIs p tokens.COMMA then
        let p1 := pNextToken (pNextToken p)
        parseFuel fuel (.fnParamsLoop (acc ++ [p1.curToken.literal])) p1
      else
        match expectPeek p tokens.RPAREN with
        | (true, p1) => .names (some acc) p1
        | (false, p1) => .names none p1
    -- Parser.parseArrayLiteral.
    | .arrayLit =>
      match parseFuel fuel (.exprList tokens.RBRACKET) p with
      | .exprs (some elems) p1 => .expr (some (Expr.ArrayLiteralE elems)) p1
      | .exprs none p1 => .expr none p1
      | _ => .expr none p
    -- Parser.parseExpressionList.
    | .exprList endTT =>
      if peekTokenIs p endTT then .exprs (some []) (pNextToken p)
      else
        let p1 := pNextToken p
        match parseFuel fuel (.expression prec.LOWEST) p1 with
        | .expr (some e) p2 => parseFuel fuel (.exprListLoop [e] endTT) p2
        | .expr none p2 => .exprs none p2
        | _ => .exprs none p
    -- The comma loop of Parser.parseExpressionList.
    | .exprListLoop acc endTT =>
      if peekTokenIs p tokens.COMMA then
        let p1 := pNextToken (pNextToken p)
        match parseFuel fuel (.expression prec.LOWEST) p1 with
        | .expr (some e) p2 => parseFuel fuel (.exprListLoop (acc ++ [e]) endTT) p2
        | .expr none p2 => .exprs none p2
        | _ => .exprs none p
      else
        match expectPeek p endTT with
        | (true, p1) => .exprs (some acc) p1
        | (false, p1) => .exprs none p1
    -- Parser.parseStatement.  The `for`, `switch`, `try`, `throw` and module
    -- statement forms are not embedded; encountering one records an error so
    -- that runProgram refuses the input.
    | .statement =>
      let t := p.curToken.ttype
      if t = tokens.LET then parseFuel fuel .letStmt p
      else if t = tokens.CONST then parseFuel fuel .constStmt p
      else if t = tokens.VAR then parseFuel fuel .varStmt p
      else if t = tokens.RETURN then parseFuel fuel .returnStmt p
      else if t = tokens.FUNCTION then parseFuel fuel .fnStmt p
      else if t = tokens.WHILE then parseFuel fuel .whileStmt p
      else if t = tokens.BREAK then
        -- Parser.parseBreakStatement
        .stmtA (some Stmt.BreakS) (skipSemicolon p)
      else if t = tokens.CONTINUE then
        -- Parser.parseContinueStatement
        .stmtA (some Stmt.ContinueS) (skipSemicolon p)
      else if t = tokens.FOR ∨ t = tokens.SWITCH ∨ t = tokens.TRY ∨ t = tokens.THROW ∨
              t = tokens.IMPORT ∨ t = tokens.EXPORT then
        .stmtA none { p with errors := p.errors ++ ["statement form not embedded: " ++ t] }
      else parseFuel fuel .exprStmt p
    -- Parser.parseLetStatement.
    | .letStmt =>
      match expectPeek p tokens.IDENT with
      | (false, p1) => .stmtA none p1
      | (true, p1) =>
        let name := p1.curToken.literal
        match expectPeek p1 tokens.ASSIGN with
        | (false, p2) => .stmtA none p2
        | (true, p2) =>
          let p3 := pNextToken p2
          match parseFuel fuel (.expression prec.LOWEST) p3 with
          | .expr (some v) p4 => .stmtA (some (Stmt.LetS name v)) (skipSemicolon p4)
          | .expr none p4 => .stmtA none (skipSemicolon p4)
          | _ => .stmtA none p
    -- Parser.parseConstStatement.
    | .constStmt =>
      match expectPeek p tokens.IDENT with
      | (false, p1) => .stmtA none p1
      | (true, p1) =>
        let name := p1.curToken.literal
        match expectPeek p1 tokens.ASSIGN with
        | (false, p2) => .stmtA none p2
        | (true, p2) =>
          let p3 := pNextToken p2
          match parseFuel fuel (.expression prec.LOWEST) p3 with
          | .expr (some v) p4 => .stmtA (some (Stmt.ConstS name v)) (skipSemicolon p4)
          | .expr none p4 => .stmtA none (skipSemicolon p4)
          | _ => .stmtA none p
    -- Parser.parseVarStatement.
    | .varStmt =>
      match expectPeek p tokens.IDENT with
      | (false, p1) => .stmtA none p1
      | (true, p1) =>
        let name := p1.curToken.literal
        if peekTokenIs p1 tokens.ASSIGN then
          let p2 := pNextToken (pNextToken p1)
          match parseFuel fuel (.expression prec.LOWEST) p2 with
          | .expr (some v) p3 => .stmtA (some (Stmt.VarS name (some v))) (skipSemicolon p3)
          | .expr none p3 => .stmtA none (skipSemicolon p3)
          | _ => .stmtA none p
        else .stmtA (some (Stmt.VarS name none)) (skipSemicolon p1)
    -- Parser.parseReturnStatement.
    | .returnStmt =>
      let p1 := pNextToken p
      match parseFuel fuel (.expression prec.LOWEST) p1 with
      | .expr (some v) p2 => .stmtA (some (Stmt.ReturnS v)) (skipSemicolon p2)
      | .expr none p2 => .stmtA none (skipSemicolon p2)
      | _ => .stmtA none p
    -- Parser.parseExpressionStatement.
    | .exprStmt =>
      match parseFuel fuel (.expression prec.LOWEST) p with
      | .expr (some e) p1 => .stmtA (some (Stmt.ExpressionS e)) (skipSemicolon p1)
      | .expr none p1 => .stmtA none (skipSemicolon p1)
      | _ => .stmtA none p
    -- Parser.parseFunctionStatement: a function declaration parses as an
    -- expression statement holding the function literal.
    | .fnStmt =>
      match parseFuel fuel .fnLiteral p with
      | .expr (some e) p1 => .stmtA (some (Stmt.ExpressionS e)) (skipSemicolon p1)
      | .expr none p1 => .stmtA none (skipSemicolon p1)
      | _ => .stmtA none p
    -- Parser.parseWhileStatement.
    | .whileStmt =>
      match expectPeek p tokens.LPAREN with
      | (false, p1) => .stmtA none p1
      | (true, p1) =>
        let p2 := pNextToken p1
        match parseFuel fuel (.expression prec.LOWEST) p2 with
        | .expr none p3 => .stmtA none p3
        | .expr (some cond) p3 =>
          match expectPeek p3 tokens.RPAREN with
          | (false, p4) => .stmtA none p4
          | (true, p4) =>
            match expectPeek p4 tokens.LBRACE with
            | (false, p5) => .stmtA none p5
            | (true, p5) =>
              match parseFuel fuel .blockStmt p5 with
              | .blockA body p6 => .stmtA (some (Stmt.WhileS cond body)) p6
              | _ => .stmtA none p
        | _ => .stmtA none p
    -- Parser.parseBlockStatement.
    | .blockStmt =>
      let p1 := pNextToken p
      parseFuel fuel (.blockStmtLoop []) p1
    -- The statement loop of Parser.parseBlockStatement.
    | .blockStmtLoop acc =>
      if ¬ curTokenIs p tokens.RBRACE ∧ ¬ curTokenIs p tokens.EOF then
        match parseFuel fuel .statement p with
        | .stmtA stmt p1 =>
          let acc2 := match stmt with
            | some s => acc ++ [s]
            | none => acc
          parseFuel fuel (.blockStmtLoop acc2) (pNextToken p1)
        | _ => .blockA (Block.mk acc) p
      else .blockA (Block.mk acc) p
    -- The top-level statement loop of Parser.ParseProgram.
    | .programLoop acc =>
      if curTokenIs p tokens.EOF then .stmtList acc p
      else
        match parseFuel fuel .statement p with
        | .stmtA stmt p1 =>
          let acc2 := match stmt with
            | some s => acc ++ [s]
            | none => acc
          parseFuel fuel (.programLoop acc2) (pNextToken p1)
        | _ => .stmtList acc p

/-- Parse a whole program (`Parser.ParseProgram`). -/
def ParseProgram (fuel : Nat) (p : ParserState) : List Stmt × ParserState :=
  match parseFuel fuel (.programLoop []) p with
  | .stmtList ss p1 => (ss, p1)
  | _ => ([], p)

/-- Runtime values (the `Object` interface of the evaluator package; the
definitions live in the repository's `object.go`, which is reflected here
through its uses in the evaluator and the data model of the spec).  `Hash`
and `HashKey` are omitted: no claim exercises hashes.  Array elements and
wrapped return values are Go interface values and may be `nil`, hence
`Option Object`. -/
inductive Object where
  | IntegerO (value : Int)
  | FloatO (value : GoFloat)
  | StringO (value : String)
  | BooleanO (value : Bool)
  | NullO
  | ArrayO (elements : List (Option Object))
  | FunctionO (parameters : List String) (body : Block) (env : Nat)
  | BuiltinO (name : String)
  | ReturnValueO (value : Option Object)
  | BreakO
  | ContinueO
  | ErrorO (message : String)

/-- Object type tag of the `INTEGER_OBJ` family of constants.  `object.go`
is not under `src/`; the `"ERROR"` tag is fixed by `main.go`'s comparison
`result.Type() == "ERROR"` and the others follow the same naming scheme
(also printed by the `type` builtin in the README). -/
def Object.typeOf : Object → String
  | .IntegerO _ => "INTEGER"
  | .FloatO _ => "FLOAT"
  | .StringO _ => "STRING"
  | .BooleanO _ => "BOOLEAN"
  | .NullO => "NULL"
  | .ArrayO _ => "ARRAY"
  | .FunctionO _ _ _ => "FUNCTION"
  | .BuiltinO _ => "BUILTIN"
  | .ReturnValueO _ => "RETURN_VALUE"
  | .BreakO => "BREAK"
  | .ContinueO => "CONTINUE"
  | .ErrorO _ => "ERROR"

/-- `INTEGER_OBJ`. -/
def INTEGER_OBJ : String := "INTEGER"

/-- `FLOAT_OBJ`. -/
def FLOAT_OBJ : String := "FLOAT"

/-- `STRING_OBJ`. -/
def STRING_OBJ : String := "STRING"

/-- `BOOLEAN_OBJ`. -/
def BOOLEAN_OBJ : String := "BOOLEAN"

/-- `ARRAY_OBJ`. -/
def ARRAY_OBJ : String := "ARRAY"

/-- `RETURN_OBJ`. -/
def RETURN_OBJ : String := "RETURN_VALUE"

/-- `ERROR_OBJ`. -/
def ERROR_OBJ : String := "ERROR"

/-- `BREAK_OBJ`. -/
def BREAK_OBJ : String := "BREAK"

/-- `CONTINUE_OBJ`. -/
def CONTINUE_OBJ : String := "CONTINUE"

/-- The shared singleton `TRUE` (identity comparison on the singletons is
replaced by structural comparison, which the spec notes has identical
observable results). -/
def TRUE : Object := Object.BooleanO true

/-- The shared singleton `FALSE`. -/
def FALSE : Object := Object.BooleanO false

/-- The shared singleton `NULL`. -/
def NULL : Object := Object.NullO

/-- `nativeBoolToPyMonkeyBool`. -/
def nativeBoolToPyMonkeyBool (input : Bool) : Object :=
  if input then TRUE else FALSE

/-- An environment frame (`evaluator.Environment`): local bindings plus an
optional reference (heap index) to the enclosing environment.  The Go
`map[string]Object` is embedded as an association list with map update
semantics; stored values are Go interface values and may be `nil`. -/
structure Environment where
  store : List (String × Option Object)
  outer : Option Nat

/-- Map lookup on an environment store. -/
def storeGet : List (String × Option Object) → String → Option (Option Object)
  | [], _ => none
  | (k, w) :: rest, name => if k = name then some w else storeGet rest name

/-- Map update on an environment store. -/
def storeSet : List (String × Option Object) → String → Option Object → List (String × Option Object)
  | [], name, val => [(name, val)]
  | (k, w) :: rest, name, val =>
    if k = name then (name, val) :: rest else (k, w) :: storeSet rest name val

/-- Replace the element at an index of a list, leaving every other element
unchanged (the effect of writing through a Go pointer into the heap). -/
def listModify : List α → Nat → (α → α) → List α
  | [], _, _ => []
  | x :: xs, 0, f => f x :: xs
  | x :: xs, n + 1, f => x :: listModify xs n f

/-- `evaluator.NewEnvironment`: allocate a fresh environment with no outer
scope; returns its heap index and the grown heap. -/
def NewEnvironment (h : List Environment) : Nat × List Environment :=
  (h.length, h ++ [{ store := [], outer := none }])

/-- `evaluator.NewEnclosedEnvironment`: allocate a fresh environment whose
outer scope is the given one. -/
def NewEnclosedEnvironment (outer : Nat) (h : List Environment) : Nat × List Environment :=
  (h.length, h ++ [{ store := [], outer := some outer }])

/-- The chain walk of `Environment.Get`, with fuel; environments allocated
by the evaluator always point outward to earlier heap indices, so
`h.length` steps suffice. -/
def envGetFuel : Nat → List Environment → Nat → String → Option (Option Object)
  | 0, _, _, _ => none
  | n + 1, h, id, name =>
    match h[id]? with
    | none => none
    | some e =>
      match storeGet e.store name with
      | some v => some v
      | none =>
        match e.outer with
        | some oid => envGetFuel n h oid name
        | none => none

/-- `Environment.Get`: search the local bindings, then recurse outward.
The outer `Option` is Go's `found` flag; the inner one is the stored
(possibly `nil`) value. -/
def envGet (h : List Environment) (id : Nat) (name : String) : Option (Option Object) :=
  envGetFuel h.length h id name

/-- `Environment.Set`: write the binding into the local store of the given
environment only. -/
def envSet (h : List Environment) (id : Nat) (name : String) (val : Option Object) : List Environment :=
  listModify h id (fun e => { e with store := storeSet e.store name val })

/-- `evaluator.isError` (its argument is a possibly-`nil` interface
value). -/
def isError : Option Object → Bool
  | some o => o.typeOf = ERROR_OBJ
  | none => false

/-- `evaluator.isTruthy`: the singletons `NULL` and `FALSE` are falsy and
everything else (including a Go `nil` result, which matches the switch
default) is truthy. -/
def isTruthy : Option Object → Bool
  | some Object.NullO => false
  | some (Object.BooleanO b) => b
  | _ => true

/-- The builtin-function table (`builtins.go` is not under `src/`).
Modelled from the spec: the builtins are `print`, `len` and `type`; the
identifier lookup only needs their names.  No claim calls a builtin. -/
def builtins (name : String) : Option Object :=
  if name = "print" ∨ name = "len" ∨ name = "type" then some (Object.BuiltinO name)
  else none

/-- `evaluator.evalIdentifier`: builtins take priority, then the
environment chain; failure yields an identifier-not-found error. -/
def evalIdentifier (name : String) (env : Nat) (h : List Environment) : Option Object :=
  match builtins name with
  | some b => some b
  | none =>
    match envGet h env name with
    | some v => v
    | none => some (Object.ErrorO ("identifier not found: " ++ name))

/-- `evaluator.evalBangOperatorExpression` (the singleton identity switch,
replaced by structural matching). -/
def evalBangOperatorExpression (right : Object) : Object :=
  match right with
  | Object.BooleanO true => FALSE
  | Object.BooleanO false => TRUE
  | Object.NullO => TRUE
  | _ => FALSE

/-- `evaluator.evalMinusPrefixOperatorExpression`. -/
def evalMinusPrefixOperatorExpression (right : Object) : Object :=
  match right with
  | Object.IntegerO v => Object.IntegerO (-v)
  | Object.FloatO v => Object.FloatO { num := -v.num, den := v.den }
  | _ => Object.ErrorO ("unknown operator: -" ++ right.typeOf)

/-- `evaluator.evalPrefixExpression`. -/
def evalPrefixExpression (operator : String) (right : Object) : Object :=
  if operator = "!" then evalBangOperatorExpression right
  else if operator = "-" then evalMinusPrefixOperatorExpression right
  else Object.ErrorO ("unknown operator: " ++ operator ++ right.typeOf)

/-- `evaluator.evalIntegerInfixExpression`.  Note the absence of `**`, `%`,
`<=` and `>=` cases: they fall through to the unknown-operator error.  The
outer type asserts always succeed because the caller has checked both type
tags. -/
def evalIntegerInfixExpression (operator : String) (left right : Object) : Object :=
  match left, right with
  | Object.IntegerO leftVal, Object.IntegerO rightVal =>
    if operator = "+" then Object.IntegerO (leftVal + rightVal)
    else if operator = "-" then Object.IntegerO (leftVal - rightVal)
    else if operator = "*" then Object.IntegerO (leftVal * rightVal)
    else if operator = "/" then
      if rightVal = 0 then Object.ErrorO "division by zero"
      else Object.IntegerO (Int.tdiv leftVal rightVal)
    else if operator = "<" then nativeBoolToPyMonkeyBool (decide (leftVal < rightVal))
    else if operator = ">" then nativeBoolToPyMonkeyBool (decide (leftVal > rightVal))
    else if operator = "==" then nativeBoolToPyMonkeyBool (decide (leftVal = rightVal))
    else if operator = "!=" then nativeBoolToPyMonkeyBool (decide (leftVal ≠ rightVal))
    else Object.ErrorO ("unknown operator: " ++ operator)
  | _, _ => Object.ErrorO ("unknown operator: " ++ operator)

/-- The operand widening of `evaluator.evalFloatInfixExpression`: a float
passes through, an integer is widened; any other operand makes the source's
type assertion panic, embedded as `none`. -/
def floatOperand : Object → Option GoFloat
  | Object.FloatO f => some f
  | Object.IntegerO i => some { num := i, den := 1 }
  | _ => none

/-- `evaluator.evalFloatInfixExpression`; `none` embeds the Go panic on a
failed operand type assertion.  As in the integer case, `**`, `%`, `<=` and
`>=` are missing and fall through to the unknown-operator error. -/
def evalFloatInfixExpression (operator : String) (left right : Object) : Option Object :=
  match floatOperand left, floatOperand right with
  | some leftVal, some rightVal =>
    some (
      if operator = "+" then Object.FloatO (fadd leftVal rightVal)
      else if operator = "-" then Object.FloatO (fsub leftVal rightVal)
      else if operator = "*" then Object.FloatO (fmul leftVal rightVal)
      else if operator = "/" then
        if fzero rightVal then Object.ErrorO "division by zero"
        else Object.FloatO (fdiv leftVal rightVal)
      else if operator = "<" then nativeBoolToPyMonkeyBool (flt leftVal rightVal)
      else if operator = ">" then nativeBoolToPyMonkeyBool (flt rightVal leftVal)
      else if operator = "==" then nativeBoolToPyMonkeyBool (feq leftVal rightVal)
      else if operator = "!=" then nativeBoolToPyMonkeyBool (! feq leftVal rightVal)
      else Object.ErrorO ("unknown operator: " ++ operator))
  | _, _ => none

/-- `evaluator.evalStringInfixExpression` (both operands are strings by the
caller's check). -/
def evalStringInfixExpression (operator : String) (left right : Object) : Object :=
  match left, right with
  | Object.StringO leftVal, Object.StringO rightVal =>
    if operator = "+" then Object.StringO (leftVal ++ rightVal)
    else if operator = "==" then nativeBoolToPyMonkeyBool (decide (leftVal = rightVal))
    else if operator = "!=" then nativeBoolToPyMonkeyBool (decide (leftVal ≠ rightVal))
    else Object.ErrorO ("unknown operator: " ++ operator)
  | _, _ => Object.ErrorO ("unknown operator: " ++ operator)

/-- `evaluator.evalBooleanInfixExpression` (both operands are booleans by
the caller's check). -/
def evalBooleanInfixExpression (operator : String) (left right : Object) : Object :=
  match left, right with
  | Object.BooleanO leftVal, Object.BooleanO rightVal =>
    if operator = "==" then nativeBoolToPyMonkeyBool (leftVal = rightVal)
    else if operator = "!=" then nativeBoolToPyMonkeyBool (leftVal ≠ rightVal)
    else if operator = "&&" then nativeBoolToPyMonkeyBool (leftVal && rightVal)
    else if operator = "||" then nativeBoolToPyMonkeyBool (leftVal || rightVal)
    else Object.ErrorO ("unknown operator: " ++ operator)
  | _, _ => Object.ErrorO ("unknown operator: " ++ operator)

/-- `evaluator.evalLogicalAndExpression` (both operands already fully
evaluated by the caller). -/
def evalLogicalAndExpression (left right : Object) : Object :=
  if ¬ isTruthy (some left) then FALSE
  else nativeBoolToPyMonkeyBool (isTruthy (some right))

/-- `evaluator.evalLogicalOrExpression`. -/
def evalLogicalOrExpression (left right : Object) : Object :=
  if isTruthy (some left) then TRUE
  else nativeBoolToPyMonkeyBool (isTruthy (some right))

/-- Go interface identity (`left == right` in the cross-type arms of
`evalInfixExpression`).  The singletons `NULL`/`TRUE`/`FALSE` compare by
identity exactly as by structure; the remaining values reaching those arms
have distinct dynamic types or are separately allocated, hence compare
unequal.  (Pointer aliasing of compound values is not tracked; no claim
reaches this arm with compound operands.) -/
def objIdentityEq : Object → Object → Bool
  | Object.NullO, Object.NullO => true
  | Object.BooleanO a, Object.BooleanO b => a = b
  | _, _ => false

/-- `evaluator.evalInfixExpression`: dispatch by operand type pair, then the
cross-type equality, logical and error arms; `none` embeds a Go panic
raised inside the float arm. -/
def evalInfixExpression (operator : String) (left right : Object) : Option Object :=
  if left.typeOf = INTEGER_OBJ ∧ right.typeOf = INTEGER_OBJ then
    some (evalIntegerInfixExpression operator left right)
  else if left.typeOf = FLOAT_OBJ ∨ right.typeOf = FLOAT_OBJ then
    evalFloatInfixExpression operator left right
  else if left.typeOf = STRING_OBJ ∧ right.typeOf = STRING_OBJ then
    some (evalStringInfixExpression operator left right)
  else if left.typeOf = BOOLEAN_OBJ ∧ right.typeOf = BOOLEAN_OBJ then
    some (evalBooleanInfixExpression operator left right)
  else if operator = "==" then some (nativeBoolToPyMonkeyBool (objIdentityEq left right))
  else if operator = "!=" then some (nativeBoolToPyMonkeyBool (¬ objIdentityEq left right))
  else if operator = "&&" then some (evalLogicalAndExpression left right)
  else if operator = "||" then some (evalLogicalOrExpression left right)
  else if left.typeOf ≠ right.typeOf then
    some (Object.ErrorO ("type mismatch: " ++ left.typeOf ++ " " ++ operator ++ " " ++ right.typeOf))
  else
    some (Object.ErrorO ("unknown operator: " ++ left.typeOf ++ " " ++ operator ++ " " ++ right.typeOf))

/-- `evaluator.evalArrayIndexExpression`, after the caller's type asserts:
out-of-bounds (negative or past the last element) yields `NULL`, otherwise
the selected element. -/
def evalArrayIndexExpression (elements : List (Option Object)) (idx : Int) : Option Object :=
  let mx : Int := (elements.length : Int) - 1
  if idx < 0 ∨ idx > mx then some NULL
  else elements.getD idx.toNat none

/-- `evaluator.unwrapReturnValue`. -/
def unwrapReturnValue : Option Object → Option Object
  | some (Object.ReturnValueO v) => v
  | v => v

/-- The Go `%T` rendering used in the not-a-function error message. -/
def goTypeName : Object → String
  | Object.IntegerO _ => "*evaluator.Integer"
  | Object.FloatO _ => "*evaluator.Float"
  | Object.StringO _ => "*evaluator.String"
  | Object.BooleanO _ => "*evaluator.Boolean"
  | Object.NullO => "*evaluator.Null"
  | Object.ArrayO _ => "*evaluator.Array"
  | Object.FunctionO _ _ _ => "*evaluator.Function"
  | Object.BuiltinO _ => "*evaluator.Builtin"
  | Object.ReturnValueO _ => "*evaluator.ReturnValue"
  | Object.BreakO => "*evaluator.Break"
  | Object.ContinueO => "*evaluator.Continue"
  | Object.ErrorO _ => "*evaluator.Error"

/-- The parameter-binding loop of `evaluator.extendFunctionEnv`: parameters
are bound positionally by indexing the argument slice; a missing argument
makes the index expression `args[paramIdx]` panic, embedded as `none`. -/
def bindParams : List String → List (Option Object) → Nat → List Environment → Option (List Environment)
  | [], _, _, h => some h
  | _ :: _, [], _, _ => none
  | p :: ps, a :: rest, envId, h => bindParams ps rest envId (envSet h envId p a)

/-- `evaluator.extendFunctionEnv`: a fresh environment enclosed in the
function's captured environment, with parameters bound positionally. -/
def extendFunctionEnv (params : List String) (fnEnv : Nat) (args : List (Option Object))
    (h : List Environment) : Option (Nat × List Environment) :=
  let (envId, h1) := NewEnclosedEnvironment fnEnv h
  (bindParams params args envId h1).map (fun h2 => (envId, h2))

/-- Builtin application (`fn.Fn(args...)`; `builtins.go` is not under
`src/`).  Modelled from the spec: `len` maps arrays/strings to their length,
`type` names the argument's type, `print` returns `NULL`.  No claim calls a
builtin. -/
def applyBuiltin (name : String) (args : List (Option Object)) : Object :=
  if name = "len" then
    match args with
    | [some (Object.ArrayO elements)] => Object.IntegerO (elements.length : Int)
    | [some (Object.StringO s)] => Object.IntegerO (s.length : Int)
    | _ => Object.ErrorO "argument to len not supported"
  else if name = "type" then
    match args with
    | [some o] => Object.StringO o.typeOf
    | _ => Object.ErrorO "argument to type not supported"
  else NULL

/-- Outcome of one evaluation step (`evaluator.Eval` and helpers): a
returned Go value (possibly `nil`) with the updated environment heap, the
evaluated expression list of `evalExpressions` with the updated heap, a Go
runtime panic, or fuel exhaustion (an artifact of the embedding). -/
inductive EvalOutcome where
  | ok (value : Option Object) (h : List Environment)
  | okList (values : List (Option Object)) (h : List Environment)
  | panicked
  | timeout

/-- The shared body of the `+=`, `-=`, `*=` and `/=` arms of
`evalAssignmentExpression`: look the name up through the chain, apply the
underlying infix operator, and store the result through `Environment.Set`
(into the local scope). -/
def compoundAssign (operator name : String) (val : Option Object) (env : Nat)
    (h : List Environment) : EvalOutcome :=
  match envGet h env name with
  | none => .ok (some (Object.ErrorO ("identifier not found: " ++ name))) h
  | some current =>
    match current, val with
    | some cur, some v =>
      match evalInfixExpression operator cur v with
      | none => .panicked
      | some result =>
        if isError (some result) then .ok (some result) h
        else .ok (some result) (envSet h env name (some result))
    | _, _ => .panicked  -- nil operand: Type() dereferences nil

/-- An evaluation request: one constructor per function of the source's
mutually recursive evaluator (packed into a single fuel-indexed function so
that concrete evaluations reduce definitionally). -/
inductive EReq where
  | expr (e : Expr) (env : Nat)
  | stmt (s : Stmt) (env : Nat)
  | blockReq (b : Block) (env : Nat)
  | blockStmts (stmts : List Stmt) (result : Option Object) (env : Nat)
  | progStmts (stmts : List Stmt) (result : Option Object) (env : Nat)
  | exprListReq (es : List Expr) (acc : List (Option Object)) (env : Nat)
  | fnApply (fn : Option Object) (args : List (Option Object))
  | whileLoop (cond : Expr) (body : Block) (env : Nat) (result : Option Object)
  | assignExprE (operator : String) (name : String) (value : Expr) (env : Nat)

/-- The evaluator: one fuel-indexed function whose arms are the functions of
the source evaluator (named in the comments).  Expression-list requests
answer through `okList`, all others through `ok`. -/
def interp : Nat → EReq → List Environment → EvalOutcome
  | 0, _, _ => .timeout
  | fuel + 1, req, h =>
    match req with
    -- The expression cases of evaluator.Eval.
    | .expr e env =>
      match e with
      | Expr.IntegerLiteralE v => .ok (some (Object.IntegerO v)) h
      | Expr.FloatLiteralE v => .ok (some (Object.FloatO v)) h
      | Expr.BooleanLiteralE b => .ok (some (nativeBoolToPyMonkeyBool b)) h
      | Expr.StringLiteralE s => .ok (some (Object.StringO s)) h
      | Expr.NullLiteralE => .ok (some NULL) h
      | Expr.IdentifierE name => .ok (evalIdentifier name env h) h
      | Expr.PrefixE operator right =>
        match interp fuel (.expr right env) h with
        | .ok rv h1 =>
          if isError rv then .ok rv h1
          else
            match rv with
            | some ro => .ok (some (evalPrefixExpression operator ro)) h1
            | none =>
              -- Go nil operand: `!` hits the switch default and yields FALSE,
              -- every other operator dereferences the nil (panic).
              if operator = "!" then .ok (some FALSE) h1 else .panicked
        | other => other
      | Expr.InfixE operator left right =>
        match interp fuel (.expr left env) h with
        | .ok lv h1 =>
          if isError lv then .ok lv h1
          else
            match interp fuel (.expr right env) h1 with
            | .ok rv h2 =>
              if isError rv then .ok rv h2
              else
                match lv, rv with
                | some lo, some ro =>
                  match evalInfixExpression operator lo ro with
                  | some res => .ok (some res) h2
                  | none => .panicked
                | _, _ => .panicked  -- nil operand: Type() dereferences nil
            | other => other
        | other => other
      | Expr.IfE cond cons alt =>
        -- evaluator.evalIfExpression
        match interp fuel (.expr cond env) h with
        | .ok cv h1 =>
          if isError cv then .ok cv h1
          else if isTruthy cv then interp fuel (.blockReq cons env) h1
          else
            match alt with
            | some altBlock => interp fuel (.blockReq altBlock env) h1
            | none => .ok (some NULL) h1
        | other => other
      | Expr.ArrayLiteralE elems =>
        match interp fuel (.exprListReq elems [] env) h with
        | .okList objs h1 =>
          match objs with
          | [e0] => if isError e0 then .ok e0 h1 else .ok (some (Object.ArrayO [e0])) h1
          | _ => .ok (some (Object.ArrayO objs)) h1
        | other => other
      | Expr.IndexE left index =>
        match interp fuel (.expr left env) h with
        | .ok lv h1 =>
          if isError lv then .ok lv h1
          else
            match interp fuel (.expr index env) h1 with
            | .ok iv h2 =>
              if isError iv then .ok iv h2
              else
                -- evaluator.evalIndexExpression (hash arm omitted: no HashO)
                match lv with
                | none => .panicked  -- left.Type() dereferences nil
                | some lo =>
                  if lo.typeOf = ARRAY_OBJ then
                    match iv with
                    | none => .panicked  -- index.Type() dereferences nil
                    | some io =>
                      match lo, io with
                      | Object.ArrayO elements, Object.IntegerO idx =>
                        .ok (evalArrayIndexExpression elements idx) h2
                      | lo2, _ =>
                        .ok (some (Object.ErrorO ("index operator not supported: " ++ lo2.typeOf))) h2
                  else .ok (some (Object.ErrorO ("index operator not supported: " ++ lo.typeOf))) h2
            | other => other
        | other => other
      | Expr.FunctionLiteralE params body =>
        .ok (some (Object.FunctionO params body env)) h
      | Expr.CallE fn args =>
        match interp fuel (.expr fn env) h with
        | .ok fv h1 =>
          if isError fv then .ok fv h1
          else
            match interp fuel (.exprListReq args [] env) h1 with
            | .okList argVals h2 =>
              match argVals with
              | [a0] =>
                if isError a0 then .ok a0 h2
                else interp fuel (.fnApply fv [a0]) h2
              | _ => interp fuel (.fnApply fv argVals) h2
            | other => other
        | other => other
      | Expr.AssignmentE operator name value =>
        interp fuel (.assignExprE operator name value env) h
    -- The statement cases of evaluator.Eval.
    | .stmt s env =>
      match s with
      | Stmt.LetS name value =>
        match interp fuel (.expr value env) h with
        | .ok val h1 =>
          if isError val then .ok val h1
          else .ok val (envSet h1 env name val)
        | other => other
      | Stmt.ConstS name value =>
        match interp fuel (.expr value env) h with
        | .ok val h1 =>
          if isError val then .ok val h1
          else .ok val (envSet h1 env name val)
        | other => other
      | Stmt.VarS name value =>
        match value with
        | none => .ok (some NULL) (envSet h env name (some NULL))
        | some valueExpr =>
          match interp fuel (.expr valueExpr env) h with
          | .ok val h1 =>
            if isError val then .ok val h1
            else .ok val (envSet h1 env name val)
          | other => other
      | Stmt.ReturnS returnValue =>
        match interp fuel (.expr returnValue env) h with
        | .ok val h1 =>
          if isError val then .ok val h1
          else .ok (some (Object.ReturnValueO val)) h1
        | other => other
      | Stmt.ExpressionS e => interp fuel (.expr e env) h
      | Stmt.WhileS cond body => interp fuel (.whileLoop cond body env (some NULL)) h
      | Stmt.BreakS => .ok (some Object.BreakO) h
      | Stmt.ContinueS => .ok (some Object.ContinueO) h
    -- evaluator.evalBlockStatement (the Eval case for a block node).
    | .blockReq b env =>
      match b with
      | Block.mk stmts => interp fuel (.blockStmts stmts none env) h
    -- The statement loop of evaluator.evalBlockStatement: a return, error,
    -- break or continue result halts the block and propagates unchanged.
    | .blockStmts stmts result env =>
      match stmts with
      | [] => .ok result h
      | s :: rest =>
        match interp fuel (.stmt s env) h with
        | .ok r h1 =>
          let halts : Bool := match r with
            | some o =>
              decide (o.typeOf = RETURN_OBJ ∨ o.typeOf = ERROR_OBJ ∨
                      o.typeOf = BREAK_OBJ ∨ o.typeOf = CONTINUE_OBJ)
            | none => false
          if halts then .ok r h1 else interp fuel (.blockStmts rest r env) h1
        | other => other
    -- The statement loop of evaluator.evalProgram: a return value is
    -- unwrapped, an error is returned as is.
    | .progStmts stmts result env =>
      match stmts with
      | [] => .ok result h
      | s :: rest =>
        match interp fuel (.stmt s env) h with
        | .ok r h1 =>
          match r with
          | some (Object.ReturnValueO v) => .ok v h1
          | some (Object.ErrorO m) => .ok (some (Object.ErrorO m)) h1
          | _ => interp fuel (.progStmts rest r env) h1
        | other => other
    -- evaluator.evalExpressions: evaluate in order; on the first error,
    -- return the singleton list that holds it.
    | .exprListReq es acc env =>
      match es with
      | [] => .okList acc h
      | e :: rest =>
        match interp fuel (.expr e env) h with
        | .ok v h1 =>
          if isError v then .okList [v] h1
          else interp fuel (.exprListReq rest (acc ++ [v]) env) h1
        | other => other
    -- evaluator.applyFunction: user functions run their body in an extended
    -- environment and unwrap a return value; builtins are applied directly;
    -- anything else is a not-a-function error.
    | .fnApply fn args =>
      match fn with
      | some (Object.FunctionO params body fnEnv) =>
        match extendFunctionEnv params fnEnv args h with
        | none => .panicked  -- args[paramIdx] out of range
        | some (envId, h1) =>
          match interp fuel (.blockReq body envId) h1 with
          | .ok v h2 => .ok (unwrapReturnValue v) h2
          | other => other
      | some (Object.BuiltinO name) => .ok (some (applyBuiltin name args)) h
      | some other => .ok (some (Object.ErrorO ("not a function: " ++ goTypeName other))) h
      | none => .ok (some (Object.ErrorO "not a function: <nil>")) h
    -- The loop of evaluator.evalWhileStatement, carrying the running
    -- `result` variable: an untruthy condition returns the last body result,
    -- a break returns NULL, return/error results are returned unchanged, and
    -- a continue (like a normal result) re-checks the condition.
    | .whileLoop cond body env result =>
      match interp fuel (.expr cond env) h with
      | .ok cv h1 =>
        if isError cv then .ok cv h1
        else if ¬ isTruthy cv then .ok result h1
        else
          match interp fuel (.blockReq body env) h1 with
          | .ok r h2 =>
            match r with
            | some o =>
              if o.typeOf = RETURN_OBJ ∨ o.typeOf = ERROR_OBJ then .ok r h2
              else if o.typeOf = BREAK_OBJ then .ok (some NULL) h2
              else interp fuel (.whileLoop cond body env r) h2
            | none => interp fuel (.whileLoop cond body env r) h2
          | other => other
      | other => other
    -- evaluator.evalAssignmentExpression: evaluate the right-hand side, then
    -- dispatch on the assignment operator.
    | .assignExprE operator name value env =>
      match interp fuel (.expr value env) h with
      | .ok val h1 =>
        if isError val then .ok val h1
        else if operator = "=" then .ok val (envSet h1 env name val)
        else if operator = "+=" then compoundAssign "+" name val env h1
        else if operator = "-=" then compoundAssign "-" name val env h1
        else if operator = "*=" then compoundAssign "*" name val env h1
        else if operator = "/=" then compoundAssign "/" name val env h1
        else .ok (some (Object.ErrorO ("unknown assignment operator: " ++ operator))) h1
      | other => other

/-- Expression evaluation (the expression half of `evaluator.Eval`). -/
def evalExpr (fuel : Nat) (e : Expr) (env : Nat) (h : List Environment) : EvalOutcome :=
  interp fuel (.expr e env) h

/-- Statement evaluation (the statement half of `evaluator.Eval`). -/
def evalStmt (fuel : Nat) (s : Stmt) (env : Nat) (h : List Environment) : EvalOutcome :=
  interp fuel (.stmt s env) h

/-- `evaluator.evalBlockStatement`. -/
def evalBlock (fuel : Nat) (b : Block) (env : Nat) (h : List Environment) : EvalOutcome :=
  interp fuel (.blockReq b env) h

/-- `evaluator.evalExpressions`. -/
def evalExpressions (fuel : Nat) (es : List Expr) (env : Nat) (h : List Environment) : EvalOutcome :=
  interp fuel (.exprListReq es [] env) h

/-- `evaluator.applyFunction`. -/
def applyFunction (fuel : Nat) (fn : Option Object) (args : List (Option Object))
    (h : List Environment) : EvalOutcome :=
  interp fuel (.fnApply fn args) h

/-- The loop of `evaluator.evalWhileStatement` (the while statement itself
enters this loop with `NULL` as the initial result). -/
def evalWhileAux (fuel : Nat) (cond : Expr) (body : Block) (env : Nat)
    (result : Option Object) (h : List Environment) : EvalOutcome :=
  interp fuel (.whileLoop cond body env result) h

/-- `evaluator.evalAssignmentExpression`. -/
def evalAssignmentExpression (fuel : Nat) (operator name : String) (value : Expr)
    (env : Nat) (h : List Environment) : EvalOutcome :=
  interp fuel (.assignExprE operator name value env) h

/-- `evaluator.evalProgram` (the `Eval` case for the program node). -/
def evalProgram (fuel : Nat) (stmts : List Stmt) (env : Nat) (h : List Environment) : EvalOutcome :=
  interp fuel (.progStmts stmts none env) h

/-- Result of running a source text through the full pipeline. -/
inductive RunResult where
  | parseFailed (errors : List String)
  | value (v : Option Object) (h : List Environment)
  | panicked
  | timeout

/-- The pipeline of `main.executeProgram`: lex, parse, refuse the input when
any parse error was recorded, otherwise evaluate the program in a fresh
top-level environment. -/
def runProgram (fuel : Nat) (src : String) : RunResult :=
  let p := pNew (NewLexer src)
  let (stmts, p1) := ParseProgram fuel p
  if p1.errors.isEmpty then
    let (gid, h0) := NewEnvironment []
    match evalProgram fuel stmts gid h0 with
    | .ok v h => .value v h
    | .okList _ _ => .panicked  -- unreachable: program requests never answer with a list
    | .panicked => .panicked
    | .timeout => .timeout
  else .parseFailed p1.errors

/-- The final value of a run, `none` unless the run parsed and evaluated
cleanly. -/
def runValue (fuel : Nat) (src : String) : Option (Option Object) :=
  match runProgram fuel src with
  | .value v _ => some v
  | _ => none

/-- The value bound to a name in the top-level environment after a run. -/
def topBinding (fuel : Nat) (src : String) (name : String) : Option Object :=
  match runProgram fuel src with
  | .value _ h =>
    match envGet h 0 name with
    | some (some o) => some o
    | _ => none
  | _ => none

/-- The closure-counter program of the README (`createCounter`), with the
three successive call results bound to `a`, `b` and `c`. -/
def counterSrc : String :=
  "let createCounter = fn() { let count = 0; return fn() { count += 1; return count; }; }; let counter = createCounter(); let a = counter(); let b = counter(); let c = counter();"

/-- A two-frame heap for exercising `Environment.Set`: a global frame that
already binds `x`, and an enclosed inner frame. -/
def c2heap : List Environment :=
  [{ store := [("x", some (Object.IntegerO 7))], outer := none },
   { store := [], outer := some 0 }]

set_option maxRecDepth 4000

/-- C1: the spec claims the closure counter built by an outer function with
a local variable initialized to 0 — whose inner function increments that
variable with `+=` and returns it — yields 1, 2, 3 on three successive
calls and never three 1s.  On the code it yields 1, 1, 1: `Environment.Set`
writes the incremented value into the per-call environment (a local
shadow), so the captured binding still holds 0 at the next call.  The
second call's result is 1, not 2. -/
theorem c1_counter_yields_one_one_one :
    topBinding 200 counterSrc "a" = some (Object.IntegerO 1)
    ∧ topBinding 200 counterSrc "b" = some (Object.IntegerO 1)
    ∧ topBinding 200 counterSrc "c" = some (Object.IntegerO 1)
    ∧ (some (Object.IntegerO 1) : Option Object) ≠ some (Object.IntegerO 2) :=
  ⟨rfl, rfl, rfl, by simp⟩

/-- C2: `Environment.Set` writes the binding only into the addressed
environment's own local store; every other frame of the heap — in
particular every enclosing environment, even one that already binds the
same name — is unchanged by the call. -/
theorem c2_set_only_local (h : List Environment) (id j : Nat) (n : String) (v : Object)
    (hj : j ≠ id) :
    (envSet h id n (some v))[j]? = h[j]? := by
  unfold envSet
  induction h generalizing id j with
  | nil => simp [listModify]
  | cons x xs ih =>
    cases id with
    | zero =>
      cases j with
      | zero => exact absurd rfl hj
      | succ j2 => simp [listModify]
    | succ n2 =>
      cases j with
      | zero => simp [listModify]
      | succ j2 =>
        simpa [listModify] using ih n2 j2 (by omega)

/-- Witness for C2: writing `x` through the inner frame of a two-frame
chain leaves the outer frame — which already binds `x` — unchanged. -/
theorem c2_witness :
    (0 : Nat) ≠ 1 ∧
    (envSet c2heap 1 "x" (some (Object.IntegerO 9)))[0]? = c2heap[0]? :=
  ⟨by decide, c2_set_only_local c2heap 1 0 "x" (Object.IntegerO 9) (by decide)⟩

/-- C3: `2 ** 3 * 2` lexes and parses with `**` binding tighter than `*`
(the tree is `(2 ** 3) * 2` and no parse error is recorded), but evaluating
it yields the Error `unknown operator: **` — not the Integer 16 the spec
promises — because the integer infix evaluator has no `**` case. -/
theorem c3_power_unknown_operator :
    (ParseProgram 99 (pNew (NewLexer "2 ** 3 * 2"))).1
      = [Stmt.ExpressionS (Expr.InfixE "*"
          (Expr.InfixE "**" (Expr.IntegerLiteralE 2) (Expr.IntegerLiteralE 3))
          (Expr.IntegerLiteralE 2))]
    ∧ (ParseProgram 99 (pNew (NewLexer "2 ** 3 * 2"))).2.errors = []
    ∧ runValue 99 "2 ** 3 * 2" = some (some (Object.ErrorO "unknown operator: **"))
    ∧ some (some (Object.ErrorO "unknown operator: **")) ≠ some (some (Object.IntegerO 16)) :=
  ⟨rfl, rfl, rfl, by simp⟩

/-- Counterexample to C4 as stated: evaluating `1 <= 2` yields the Error
`unknown operator: <=`, not the Boolean `true` the claim requires. -/
theorem c4_counterexample :
    runValue 99 "1 <= 2" = some (some (Object.ErrorO "unknown operator: <="))
    ∧ some (some (Object.ErrorO "unknown operator: <=")) ≠ some (some (Object.BooleanO true)) :=
  ⟨rfl, by simp⟩

/-- C4 as amended: the lexer recognizes `<=` and `>=` by one-byte lookahead
and the parser gives them relational precedence, but evaluating `a <= b` or
`a >= b` on two Integers always yields the Error `unknown operator: <=`
(resp. `>=`) — never a Boolean — because the integer infix evaluator
implements neither operator. -/
theorem c4_amended :
    (∀ a b : Int, evalInfixExpression "<=" (Object.IntegerO a) (Object.IntegerO b)
      = some (Object.ErrorO "unknown operator: <="))
    ∧ (∀ a b : Int, evalInfixExpression ">=" (Object.IntegerO a) (Object.IntegerO b)
      = some (Object.ErrorO "unknown operator: >="))
    ∧ (NextToken (NewLexer "<= 2")).1 = { ttype := tokens.LTE, literal := "<=" }
    ∧ (NextToken (NewLexer ">= 2")).1 = { ttype := tokens.GTE, literal := ">=" }
    ∧ precedences tokens.LTE = some prec.LESSGREATER
    ∧ precedences tokens.GTE = some prec.LESSGREATER
    ∧ runValue 99 "1 <= 2" = some (some (Object.ErrorO "unknown operator: <="))
    ∧ runValue 99 "1 >= 2" = some (some (Object.ErrorO "unknown operator: >=")) :=
  ⟨fun _ _ => rfl, fun _ _ => rfl, rfl, rfl, rfl, rfl, rfl, rfl⟩

/-- C5: an infix expression — `&&` and `||` included — always evaluates its
right operand after the left one succeeded, with no short-circuiting: if
the right operand evaluates to an Error, that Error is the whole
expression's result regardless of the left operand's truthiness. -/
theorem c5_infix_right_always_evaluated
    (fuel : Nat) (operator : String) (left right : Expr) (env : Nat)
    (h h1 h2 : List Environment) (lv : Option Object) (msg : String)
    (hl : evalExpr fuel left env h = .ok lv h1)
    (hnl : isError lv = false)
    (hr : evalExpr fuel right env h1 = .ok (some (Object.ErrorO msg)) h2) :
    evalExpr (fuel + 1) (Expr.InfixE operator left right) env h
      = .ok (some (Object.ErrorO msg)) h2 := by
  have hl2 : interp fuel (.expr left env) h = .ok lv h1 := hl
  have hr2 : interp fuel (.expr right env) h1 = .ok (some (Object.ErrorO msg)) h2 := hr
  show interp (fuel + 1) (.expr (Expr.InfixE operator left right) env) h
      = .ok (some (Object.ErrorO msg)) h2
  simp only [interp, hl2, hr2, hnl]
  simp [isError, Object.typeOf, ERROR_OBJ]

/-- Witness for C5: `false && (1 / 0)` evaluates to the division-by-zero
Error even though the left operand alone would settle the conventional
short-circuit answer. -/
theorem c5_witness :
    evalExpr 10 (Expr.InfixE "&&" (Expr.BooleanLiteralE false)
        (Expr.InfixE "/" (Expr.IntegerLiteralE 1) (Expr.IntegerLiteralE 0))) 0
        [{ store := [], outer := none }]
      = .ok (some (Object.ErrorO "division by zero")) [{ store := [], outer := none }] :=
  c5_infix_right_always_evaluated 9 "&&" _ _ 0 _ _ _ (some FALSE) "division by zero" rfl rfl rfl

/-- C6: dividing any Integer by the Integer 0, and dividing any Float (or
mixed float/integer pair) by a zero divisor, yields the Error
`division by zero` — never a panic and never a numeric result. -/
theorem c6_division_by_zero :
    (∀ a : Int, evalInfixExpression "/" (Object.IntegerO a) (Object.IntegerO 0)
      = some (Object.ErrorO "division by zero"))
    ∧ (∀ (x : GoFloat) (d : Int),
        evalInfixExpression "/" (Object.FloatO x) (Object.FloatO { num := 0, den := d })
          = some (Object.ErrorO "division by zero"))
    ∧ (∀ x : GoFloat, evalInfixExpression "/" (Object.FloatO x) (Object.IntegerO 0)
        = some (Object.ErrorO "division by zero"))
    ∧ (∀ (a d : Int),
        evalInfixExpression "/" (Object.IntegerO a) (Object.FloatO { num := 0, den := d })
          = some (Object.ErrorO "division by zero"))
    ∧ runValue 99 "5 / 0" = some (some (Object.ErrorO "division by zero"))
    ∧ runValue 99 "5.0 / 0" = some (some (Object.ErrorO "division by zero")) :=
  ⟨fun _ => rfl, fun _ _ => rfl, fun _ => rfl, fun _ _ => rfl, rfl, rfl⟩

/-- C7: in a while statement whose condition evaluated truthily, a body
result of Break makes the whole statement evaluate to `NULL`; a
ReturnValue or Error body result is returned unchanged immediately; and a
Continue body result sends the loop directly back to the next condition
check. -/
theorem c7_while_signals
    (fuel : Nat) (cond : Expr) (body : Block) (env : Nat)
    (h h1 h2 : List Environment) (cv r : Option Object)
    (hc : evalExpr fuel cond env h = .ok cv h1)
    (hce : isError cv = false)
    (hct : isTruthy cv = true)
    (hb : evalBlock fuel body env h1 = .ok r h2) :
    (r = some Object.BreakO →
      evalStmt (fuel + 2) (Stmt.WhileS cond body) env h = .ok (some NULL) h2)
    ∧ (∀ v, r = some (Object.ReturnValueO v) →
      evalStmt (fuel + 2) (Stmt.WhileS cond body) env h = .ok r h2)
    ∧ (∀ m, r = some (Object.ErrorO m) →
      evalStmt (fuel + 2) (Stmt.WhileS cond body) env h = .ok r h2)
    ∧ (∀ result, r = some Object.ContinueO →
      evalWhileAux (fuel + 1) cond body env result h
        = evalWhileAux fuel cond body env r h2) := by
  have hc2 : interp fuel (.expr cond env) h = .ok cv h1 := hc
  have hb2 : interp fuel (.blockReq body env) h1 = .ok r h2 := hb
  refine ⟨?_, ?_, ?_, ?_⟩
  case _ =>
    intro hbr
    subst hbr
    show interp (fuel + 2) (.stmt (Stmt.WhileS cond body) env) h = .ok (some NULL) h2
    simp only [interp, hc2, hb2, hce, hct]
    simp [Object.typeOf, RETURN_OBJ, ERROR_OBJ, BREAK_OBJ]
  case _ =>
    intro v hbr
    subst hbr
    show interp (fuel + 2) (.stmt (Stmt.WhileS cond body) env) h
        = .ok (some (Object.ReturnValueO v)) h2
    simp only [interp, hc2, hb2, hce, hct]
    simp [Object.typeOf, RETURN_OBJ]
  case _ =>
    intro m hbr
    subst hbr
    show interp (fuel + 2) (.stmt (Stmt.WhileS cond body) env) h
        = .ok (some (Object.ErrorO m)) h2
    simp only [interp, hc2, hb2, hce, hct]
    simp [Object.typeOf, RETURN_OBJ, ERROR_OBJ]
  case _ =>
    intro result hbr
    subst hbr
    show interp (fuel + 1) (.whileLoop cond body env result) h
        = interp fuel (.whileLoop cond body env (some Object.ContinueO)) h2
    simp only [interp, hc2, hb2, hce, hct]
    simp [Object.typeOf, RETURN_OBJ, ERROR_OBJ, BREAK_OBJ]

/-- Witness for C7: `while (true) { break; }` evaluates to `NULL`. -/
theorem c7_witness :
    evalStmt 7 (Stmt.WhileS (Expr.BooleanLiteralE true) (Block.mk [Stmt.BreakS])) 0
        [{ store := [], outer := none }]
      = .ok (some NULL) [{ store := [], outer := none }] :=
  (c7_while_signals 5 (Expr.BooleanLiteralE true) (Block.mk [Stmt.BreakS]) 0
    [{ store := [], outer := none }] [{ store := [], outer := none }]
    [{ store := [], outer := none }]
    (some TRUE) (some Object.BreakO) rfl rfl rfl rfl).1 rfl

/-- C8: integer indexing into an Array yields `NULL` for every
out-of-bounds index (negative or at least the length) and the selected
element for every in-bounds index; `let a = [1,2,3]; a[5]` runs to `NULL`,
not an Error. -/
theorem c8_array_index (elements : List (Option Object)) (i : Int) :
    ((i < 0 ∨ (elements.length : Int) ≤ i) →
      evalArrayIndexExpression elements i = some NULL)
    ∧ (∀ el, 0 ≤ i → elements[i.toNat]? = some el →
      evalArrayIndexExpression elements i = el)
    ∧ runValue 99 "let a = [1,2,3]; a[5]" = some (some NULL) := by
  refine ⟨?_, ?_, rfl⟩
  case _ =>
    intro hout
    unfold evalArrayIndexExpression
    rw [if_pos]
    omega
  case _ =>
    intro el hnn hget
    have hlt : i.toNat < elements.length := by
      exact List.getElem?_eq_some_iff.mp hget |>.1
    unfold evalArrayIndexExpression
    rw [if_neg, List.getD_eq_getElem?_getD, hget]
    rfl
    omega

/-- Witness for C8: index 5 of a two-element array is `NULL`; index 1
selects the second element. -/
theorem c8_witness :
    evalArrayIndexExpression [some (Object.IntegerO 1), some (Object.IntegerO 2)] 5 = some NULL
    ∧ evalArrayIndexExpression [some (Object.IntegerO 1), some (Object.IntegerO 2)] 1
      = some (Object.IntegerO 2) :=
  ⟨(c8_array_index [some (Object.IntegerO 1), some (Object.IntegerO 2)] 5).1 (by decide),
   (c8_array_index [some (Object.IntegerO 1), some (Object.IntegerO 2)] 1).2.1
     (some (Object.IntegerO 2)) (by decide) rfl⟩

/-- C9: integer-by-integer arithmetic stays in the integers — `10 / 4`
evaluates to the Integer 2, truncating toward zero — while a float on
either side widens both operands: `10.0 / 4` evaluates to a Float whose
value is 5/2, and any nonzero division with a float operand produces a
Float. -/
theorem c9_promotion :
    runValue 99 "10 / 4" = some (some (Object.IntegerO 2))
    ∧ (∃ f : GoFloat,
        runValue 99 "10.0 / 4" = some (some (Object.FloatO f)) ∧ toRat f = 5 / 2)
    ∧ (∀ a b : Int, b ≠ 0 →
        evalInfixExpression "/" (Object.IntegerO a) (Object.IntegerO b)
          = some (Object.IntegerO (Int.tdiv a b)))
    ∧ (∀ (x : GoFloat) (b : Int), b ≠ 0 →
        evalInfixExpression "/" (Object.FloatO x) (Object.IntegerO b)
          = some (Object.FloatO (fdiv x { num := b, den := 1 })))
    ∧ (∀ (a : Int) (y : GoFloat), fzero y = false →
        evalInfixExpression "/" (Object.IntegerO a) (Object.FloatO y)
          = some (Object.FloatO (fdiv { num := a, den := 1 } y))) := by
  refine ⟨rfl, ⟨{ num := 100, den := 40 }, rfl, by norm_num [toRat]⟩, ?_, ?_, ?_⟩
  case _ =>
    intro a b hb
    simp [evalInfixExpression, evalIntegerInfixExpression, Object.typeOf, INTEGER_OBJ, hb]
  case _ =>
    intro x b hb
    simp [evalInfixExpression, evalFloatInfixExpression, floatOperand, Object.typeOf,
      INTEGER_OBJ, FLOAT_OBJ, fzero, hb]
  case _ =>
    intro a y hy
    simp [evalInfixExpression, evalFloatInfixExpression, floatOperand, Object.typeOf,
      INTEGER_OBJ, FLOAT_OBJ, hy]

/-- Witness for C9: the general division conjuncts applied at `10 / 4`,
`10.0 / 4` and `10 / 4.0`. -/
theorem c9_witness :
    (4 : Int) ≠ 0
    ∧ evalInfixExpression "/" (Object.IntegerO 10) (Object.IntegerO 4)
        = some (Object.IntegerO (Int.tdiv 10 4))
    ∧ evalInfixExpression "/" (Object.FloatO { num := 100, den := 10 }) (Object.IntegerO 4)
        = some (Object.FloatO (fdiv { num := 100, den := 10 } { num := 4, den := 1 }))
    ∧ evalInfixExpression "/" (Object.IntegerO 10) (Object.FloatO { num := 4, den := 1 })
        = some (Object.FloatO (fdiv { num := 10, den := 1 } { num := 4, den := 1 })) :=
  ⟨by decide,
   c9_promotion.2.2.1 10 4 (by decide),
   c9_promotion.2.2.2.1 { num := 100, den := 10 } 4 (by decide),
   c9_promotion.2.2.2.2 10 { num := 4, den := 1 } (by decide)⟩

/-- Parameter binding walks the parameter list positionally, so whenever
the arguments run out before the parameters the indexing `args[paramIdx]`
has no in-bounds guarantee and the binding loop aborts (the embedded Go
panic). -/
theorem bindParams_eq_none (params : List String) :
    ∀ (args : List (Option Object)) (envId : Nat) (h : List Environment),
      args.length < params.length → bindParams params args envId h = none := by
  induction params with
  | nil => intro args envId h hlt; simp at hlt
  | cons p ps ih =>
    intro args envId h hlt
    cases args with
    | nil => rfl
    | cons a rest =>
      simp only [bindParams]
      exact ih rest envId _ (by simpa using hlt)

/-- C10: applying a user-defined function binds parameters positionally
with no arity check; a call with fewer arguments than parameters makes the
argument indexing go out of range, and the evaluator panics rather than
returning an Error object — as the concrete run
`let f = fn(x) { return x; }; f();` shows. -/
theorem c10_no_arity_check :
    (∀ (fuel : Nat) (params : List String) (body : Block) (fnEnv : Nat)
        (args : List (Option Object)) (h : List Environment),
      args.length < params.length →
      applyFunction (fuel + 1) (some (Object.FunctionO params body fnEnv)) args h
        = .panicked)
    ∧ runProgram 99 "let f = fn(x) { return x; }; f();" = .panicked := by
  refine ⟨?_, rfl⟩
  intro fuel params body fnEnv args h hlt
  show interp (fuel + 1) (.fnApply (some (Object.FunctionO params body fnEnv)) args) h
      = .panicked
  simp only [interp, extendFunctionEnv, NewEnclosedEnvironment]
  rw [bindParams_eq_none params args _ _ hlt]
  rfl

/-- Witness for C10: a one-parameter function applied to no arguments
panics. -/
theorem c10_witness :
    ([] : List (Option Object)).length < (["x"]).length
    ∧ applyFunction 1 (some (Object.FunctionO ["x"] (Block.mk []) 0)) [] []
        = .panicked :=
  ⟨by decide, c10_no_arity_check.1 0 ["x"] (Block.mk []) 0 [] [] (by decide)⟩
